import Mathlib

/-!
Verification of the SM-2 spaced-repetition core in
custom_components/vocabulary_learner/vocabulary/spaced_repetition.py.

Modelling choices for the shallow embedding:
* Python floats are modelled as exact rationals (ℚ); the decimal literals of the
  source (0.1, 0.08, 0.02, 100.0, ...) become the corresponding rationals.
* datetime values are modelled as rationals counting days since an epoch; the
  Python expression (a - b).days (timedelta.days, which floors towards -∞) becomes
  Int.floor (a - b), and datetime.now() + timedelta(days=n) becomes now + n.
* Python int() applied to a float truncates towards zero; pyInt models this.
* datetime.isoformat and datetime.fromisoformat are serialization collaborators
  whose grammar is irrelevant to the scheduling logic; they are taken as explicit
  function parameters (iso : ℚ → String, fromiso : String → Option ℚ, where
  fromiso returning none models the ValueError/TypeError raised on a malformed
  string, which the source catches and ignores).
* Python dicts with dict.get defaults become structures with Option fields and
  Option.getD.
* The Python method list.sort(key=..., reverse=True) is a stable sort; it is
  embedded as List.mergeSort (the stable merge sort of the library) with the comparator
  fun a b => decide (b.1 ≤ a.1), the descending comparison on the sort key.
* Python slicing l[:k] (including negative k) is modelled by pySlice.
* The source contains no raise statement; viewed through the Python exception
  channel the functions always return normally, which is made explicit by the
  Except-valued wrappers (used to settle the error-handling claims).
-/

namespace VocabSR

/-- SM-2 constant INITIAL_EASINESS = 2.5 from the source. -/
def INITIAL_EASINESS : ℚ := 5/2

/-- SM-2 constant MIN_EASINESS = 1.3 from the source. -/
def MIN_EASINESS : ℚ := 13/10

/-- SM-2 constant MIN_INTERVAL = 1 (days) from the source. -/
def MIN_INTERVAL : Int := 1

/-- SM-2 constant MAX_INTERVAL = 365 (days) from the source. -/
def MAX_INTERVAL : Int := 365

/-- Python int() applied to a rational: truncation towards zero. -/
def pyInt (x : ℚ) : Int := if 0 ≤ x then ⌊x⌋ else ⌈x⌉

/-- The only error class the spec names for the review updater. -/
inductive SRError where
  | invalidQuality
deriving DecidableEq

/-- The method calculate_next_review of class SpacedRepetition from the
source, with the ambient
time (datetime.now()) passed explicitly. Returns
(new_easiness, new_interval, next_review). -/
def calculate_next_review (quality : Int) (easiness : ℚ) (interval : Int)
    (review_count : Int) (now : ℚ) : ℚ × Int × ℚ :=
  let new_easiness := easiness +
    ((1:ℚ)/10 - (5 - (quality : ℚ)) * (8/100 + (5 - (quality : ℚ)) * (2/100)))
  let new_easiness := max MIN_EASINESS new_easiness
  let new_interval :=
    if quality < 3 then
      MIN_INTERVAL
    else
      if review_count = 0 then
        1
      else if review_count = 1 then
        6
      else
        pyInt ((interval : ℚ) * new_easiness)
  let new_interval := max MIN_INTERVAL (min MAX_INTERVAL new_interval)
  let next_review := now + (new_interval : ℚ)
  (new_easiness, new_interval, next_review)

/-- The function calculate_next_review seen through the Python exception
channel. The source
function contains no raise statement, so the body is the plain computation. -/
def calculate_next_review_exc (quality : Int) (easiness : ℚ) (interval : Int)
    (review_count : Int) (now : ℚ) : Except SRError (ℚ × Int × ℚ) :=
  Except.ok (calculate_next_review quality easiness interval review_count now)

/-- The method is_due_for_review of class SpacedRepetition from the source. -/
def is_due_for_review (next_review : Option ℚ) (now : ℚ) : Bool :=
  match next_review with
  | none => true
  | some t => decide (now ≥ t)

/-- The method get_priority_score of class SpacedRepetition from the source.
Note the guard
`if next_review and is_due_for_review(next_review)`: a None next_review is
falsy in Python, so the overdue branch is only taken for a present (some)
timestamp. -/
def get_priority_score (next_review : Option ℚ) (review_count : Int)
    (easiness : ℚ) (status : String) (now : ℚ) : ℚ :=
  if review_count = 0 then
    1000
  else
    let score : ℚ := 0
    let score :=
      match next_review with
      | some t =>
          if is_due_for_review (some t) now then
            score + (100 + ((⌊now - t⌋ : Int) : ℚ) * 10)
          else
            score
      | none => score
    let score := score + (3 - easiness) * 5
    let score :=
      if status = "unknown" then score + 50
      else if status = "learning" then score + 25
      else score
    score - (review_count : ℚ) * (1/10)

/-- The progress dictionary of a word; absent keys are none, matching dict.get. -/
structure WordProgress where
  easiness : Option ℚ := none
  interval : Option Int := none
  review_count : Option Int := none
  next_review : Option String := none
  last_review : Option String := none
  consecutive_correct : Option Int := none
  consecutive_incorrect : Option Int := none
  status : Option String := none
deriving DecidableEq

/-- The empty progress dictionary, the default that word_data.get supplies for
the progress key. -/
def WordProgress.empty : WordProgress := {}

/-- The method update_word_progress of class SpacedRepetition from the
source, with the
isoformat serializer and the ambient time passed explicitly. The sequential
dict mutations become sequential record updates. -/
def update_word_progress (iso : ℚ → String) (now : ℚ)
    (word_progress : WordProgress) (quality : Int) : WordProgress :=
  let easiness := word_progress.easiness.getD INITIAL_EASINESS
  let interval := word_progress.interval.getD MIN_INTERVAL
  let review_count := word_progress.review_count.getD 0
  let r := calculate_next_review quality easiness interval review_count now
  let new_easiness := r.1
  let new_interval := r.2.1
  let next_review := r.2.2
  let wp := { word_progress with
      easiness := some new_easiness,
      interval := some new_interval,
      next_review := some (iso next_review),
      last_review := some (iso now),
      review_count := some (review_count + 1) }
  let wp :=
    if quality ≥ 3 then
      { wp with
          consecutive_correct := some (wp.consecutive_correct.getD 0 + 1),
          consecutive_incorrect := some 0 }
    else
      { wp with
          consecutive_incorrect := some (wp.consecutive_incorrect.getD 0 + 1),
          consecutive_correct := some 0 }
  if quality ≥ 4 ∧ review_count ≥ 3 then
    { wp with status := some "known" }
  else if quality ≥ 3 then
    { wp with status := some "learning" }
  else if quality < 3 then
    { wp with status := some "unknown" }
  else
    wp

/-- The function update_word_progress seen through the Python exception
channel; the source
function contains no raise statement. -/
def update_word_progress_exc (iso : ℚ → String) (now : ℚ)
    (word_progress : WordProgress) (quality : Int) :
    Except SRError WordProgress :=
  Except.ok (update_word_progress iso now word_progress quality)

/-- One entry of the word pool: the payload and its optional progress dict. -/
structure WordData where
  word : String := ""
  progress : Option WordProgress := none
deriving DecidableEq

/-- The loop body of get_words_for_review: read the progress dict (defaulting
to the empty dict), try to parse the stored next_review string (an absent key,
an empty (falsy) string, or a parse failure all yield none, matching the
try/except around datetime.fromisoformat), and score the word. -/
def score_word (fromiso : String → Option ℚ) (now : ℚ)
    (word_data : WordData) : ℚ × WordData :=
  let progress := word_data.progress.getD WordProgress.empty
  let next_review_str := progress.next_review
  let next_review : Option ℚ :=
    match next_review_str with
    | some s => if s = "" then none else fromiso s
    | none => none
  let priority := get_priority_score next_review
    (progress.review_count.getD 0)
    (progress.easiness.getD INITIAL_EASINESS)
    (progress.status.getD "unknown")
    now
  (priority, word_data)

/-- Python slicing l[:k], including negative k: l[:k] for k ≥ 0 keeps the
first k elements; for k < 0 it drops the last |k| elements. -/
def pySlice {α : Type} (l : List α) (k : Int) : List α :=
  if 0 ≤ k then l.take k.toNat else l.take (l.length - (-k).toNat)

/-- The method get_words_for_review of class SpacedRepetition from the
source: score every word,
stable-sort by priority descending, return the slice [:max_words]. -/
def get_words_for_review (fromiso : String → Option ℚ) (now : ℚ)
    (all_words : List WordData) (max_words : Int) : List WordData :=
  let words_with_priority := all_words.map (score_word fromiso now)
  let sorted := words_with_priority.mergeSort (fun a b => decide (b.1 ≤ a.1))
  (pySlice sorted max_words).map Prod.snd

/-- Written from the words of the spec for the selector contract (spec
section 4.2):
sort the scored pool by priority descending with ties broken by input order
(a total order on score paired with input position), and return the first
min(maxWords, pool size) entries. List.enumLE of the descending comparator is
precisely that total order on position-annotated entries. -/
def selectForReviewSpec (fromiso : String → Option ℚ) (now : ℚ)
    (pool : List WordData) (maxWords : Nat) : List WordData :=
  let scored := pool.map (score_word fromiso now)
  let ranked :=
    (scored.enum.mergeSort (List.enumLE (fun a b => decide (b.1 ≤ a.1)))).map
      (fun p => p.2)
  (ranked.take (min maxWords pool.length)).map Prod.snd

/-- A progress dict holding a malformed next_review string, used as a test
fixture. -/
def testProgress : WordProgress :=
  { next_review := some "not-a-timestamp", review_count := some 1 }

/-- A pool entry carrying testProgress. -/
def testWord : WordData := { word := "haus", progress := some testProgress }

/-- A parser that fails on every string, modelling fromisoformat raising on
every input it is given here. -/
def noParse : String → Option ℚ := fun _ => none

/-- Clamping to [MIN_INTERVAL, MAX_INTERVAL] erases the difference between
Python int() truncation and mathematical floor: for nonnegative arguments the
two agree, and for negative arguments both land below the lower clamp. -/
theorem clamp_pyInt_eq_clamp_floor (x : ℚ) :
    max MIN_INTERVAL (min MAX_INTERVAL (pyInt x)) =
      max MIN_INTERVAL (min MAX_INTERVAL ⌊x⌋) := by
  unfold pyInt
  split_ifs with h
  · rfl
  · push_neg at h
    have hc : ⌈x⌉ ≤ 0 := Int.ceil_le.mpr (by exact_mod_cast h.le)
    have hf : ⌊x⌋ ≤ ⌈x⌉ := Int.floor_le_ceil x
    unfold MIN_INTERVAL MAX_INTERVAL
    omega

/-- C1 counterexample: a call with quality 6 (outside [0,5]) does not fail
with InvalidQuality; it returns normally, with the SM-2 formula applied to the
out-of-range quality (EF 2.5 becomes 2.66). -/
theorem c1_counterexample :
    calculate_next_review_exc 6 (5/2) 1 0 0 = Except.ok (133/50, 1, (1:ℚ)) ∧
    calculate_next_review_exc 6 (5/2) 1 0 0 ≠
      Except.error SRError.invalidQuality := by
  have h : calculate_next_review 6 (5/2) 1 0 0 = (133/50, 1, (1:ℚ)) := by
    norm_num [calculate_next_review, MIN_EASINESS, MIN_INTERVAL, MAX_INTERVAL]
  constructor
  · show Except.ok (calculate_next_review 6 (5/2) 1 0 0) = _
    rw [h]
  · simp [calculate_next_review_exc]

/-- C1 amended: the review updater performs no quality validation at all:
for every integer quality (in range or not) both update_word_progress and
calculate_next_review return normally, never an InvalidQuality error; in
particular no failure occurs for quality in [0,5]. -/
theorem c1_no_validation (quality : Int) (easiness : ℚ) (interval : Int)
    (review_count : Int) (now : ℚ) (iso : ℚ → String) (wp : WordProgress) :
    calculate_next_review_exc quality easiness interval review_count now =
      Except.ok (calculate_next_review quality easiness interval review_count now) ∧
    update_word_progress_exc iso now wp quality =
      Except.ok (update_word_progress iso now wp quality) ∧
    ∀ err : SRError,
      calculate_next_review_exc quality easiness interval review_count now ≠
          Except.error err ∧
        update_word_progress_exc iso now wp quality ≠ Except.error err := by
  refine ⟨rfl, rfl, fun err => ⟨?_, ?_⟩⟩
  · simp [calculate_next_review_exc]
  · simp [update_word_progress_exc]

/-- C2 counterexample: a word with reviewCount 1, null nextReviewAt, EF 2.5,
status learning scores 27.4: the due-word term 100.0 + 10.0 x daysOverdue the
claim requires (which would give 127.4) is absent. -/
theorem c2_counterexample :
    get_priority_score none 1 (5/2) "learning" 0 = 137/5 ∧
    ¬ get_priority_score none 1 (5/2) "learning" 0 =
        100 + 10 * 0 + (3 - 5/2) * 5 + 25 - 1 * (1/10) := by
  have h : get_priority_score none 1 (5/2) "learning" 0 = 137/5 := by
    rw [get_priority_score]
    simp
    norm_num
  refine ⟨h, ?_⟩
  rw [h]
  norm_num

/-- C2 amended: for every word with reviewCount >= 1 whose nextReviewAt is
null, get_priority_score adds no due-word term at all: the score is exactly
(3.0 - EF) x 5.0 plus the status bonus minus 0.1 x reviewCount; the
100.0 + 10.0 x daysOverdue term is only ever added for a non-null due
timestamp. -/
theorem c2_null_next_review_no_due_term (review_count : Int) (easiness : ℚ)
    (status : String) (now : ℚ) (h : review_count ≠ 0) :
    get_priority_score none review_count easiness status now =
      (3 - easiness) * 5 +
        (if status = "unknown" then 50
         else if status = "learning" then 25 else 0) -
        (review_count : ℚ) * (1/10) := by
  rw [get_priority_score, if_neg h]
  split_ifs <;> ring

/-- C2 amended, witness at a concrete input: reviewCount 1, EF 2.5, status
learning. -/
theorem c2_null_next_review_no_due_term_witness :
    (1:Int) ≠ 0 ∧
    get_priority_score none 1 (5/2) "learning" 0 =
      (3 - (5/2 : ℚ)) * 5 +
        (if "learning" = "unknown" then 50
         else if "learning" = "learning" then 25 else 0) -
        ((1 : Int) : ℚ) * (1/10) :=
  ⟨by omega, c2_null_next_review_no_due_term 1 (5/2) "learning" 0 (by omega)⟩

/-- C3: the updater computes newEF = EF + (0.1 - (5 - q)(0.08 + (5 - q)0.02)),
floors the result at 1.3 (so the easiness of the result is always at least
1.3), and applies no upper cap: above any bound there are inputs whose
resulting easiness exceeds it. -/
theorem c3_easiness_update (quality : Int) (easiness : ℚ) (interval : Int)
    (review_count : Int) (now : ℚ) :
    (calculate_next_review quality easiness interval review_count now).1 =
      max (13/10)
        (easiness + ((1:ℚ)/10 -
          (5 - (quality : ℚ)) * (8/100 + (5 - (quality : ℚ)) * (2/100)))) ∧
    (13/10 : ℚ) ≤
      (calculate_next_review quality easiness interval review_count now).1 ∧
    ∀ bound : ℚ, ∃ e : ℚ,
      bound < (calculate_next_review quality e interval review_count now).1 := by
  refine ⟨rfl, le_max_left _ _, fun bound => ?_⟩
  refine ⟨bound + 1 - ((1:ℚ)/10 -
    (5 - (quality : ℚ)) * (8/100 + (5 - (quality : ℚ)) * (2/100))), ?_⟩
  have h1 : (calculate_next_review quality
      (bound + 1 - ((1:ℚ)/10 -
        (5 - (quality : ℚ)) * (8/100 + (5 - (quality : ℚ)) * (2/100))))
      interval review_count now).1 =
      max (13/10) (bound + 1 - ((1:ℚ)/10 -
        (5 - (quality : ℚ)) * (8/100 + (5 - (quality : ℚ)) * (2/100))) +
        ((1:ℚ)/10 -
          (5 - (quality : ℚ)) * (8/100 + (5 - (quality : ℚ)) * (2/100)))) := rfl
  rw [h1]
  have h2 : bound + 1 - ((1:ℚ)/10 -
      (5 - (quality : ℚ)) * (8/100 + (5 - (quality : ℚ)) * (2/100))) +
      ((1:ℚ)/10 -
        (5 - (quality : ℚ)) * (8/100 + (5 - (quality : ℚ)) * (2/100))) =
      bound + 1 := by ring
  rw [h2]
  have h3 := le_max_right (13/10 : ℚ) (bound + 1)
  linarith [lt_add_one bound]

/-- C4: the new interval is the clamp to [1, 365] of: 1 when quality < 3; 1 on
the first review (prior reviewCount 0) with quality >= 3; 6 on the second
review with quality >= 3; floor(priorInterval x newEF) afterwards; and the
resulting interval always lies in [1, 365]. -/
theorem c4_interval_update (quality : Int) (easiness : ℚ) (interval : Int)
    (review_count : Int) (now : ℚ) :
    (calculate_next_review quality easiness interval review_count now).2.1 =
      max 1 (min 365
        (if quality < 3 then 1
         else if review_count = 0 then 1
         else if review_count = 1 then 6
         else ⌊(interval : ℚ) *
           (calculate_next_review quality easiness interval review_count now).1⌋)) ∧
    1 ≤ (calculate_next_review quality easiness interval review_count now).2.1 ∧
    (calculate_next_review quality easiness interval review_count now).2.1 ≤ 365 := by
  refine ⟨?_, le_max_left _ _, max_le (by norm_num [MIN_INTERVAL]) (min_le_left _ _)⟩
  by_cases h1 : quality < 3
  · simp [calculate_next_review, h1, MIN_INTERVAL, MAX_INTERVAL]
  · by_cases h2 : review_count = 0
    · simp [calculate_next_review, h1, h2, MIN_INTERVAL, MAX_INTERVAL]
    · by_cases h3 : review_count = 1
      · simp [calculate_next_review, h1, h2, h3, MIN_INTERVAL, MAX_INTERVAL]
      · have := clamp_pyInt_eq_clamp_floor
          ((interval : ℚ) *
            (calculate_next_review quality easiness interval review_count now).1)
        unfold MIN_INTERVAL MAX_INTERVAL at this
        simpa [calculate_next_review, h1, h2, h3, MIN_INTERVAL, MAX_INTERVAL]
          using this

/-- C5: the new status is computed from the quality and the pre-increment
review count: known iff quality >= 4 and prior reviewCount >= 3, otherwise
learning iff quality >= 3, otherwise unknown; so a first-ever review with
quality 5 yields learning, and any quality < 3 yields unknown regardless of
the prior status. -/
theorem c5_status_update (iso : ℚ → String) (now : ℚ) (wp : WordProgress)
    (quality : Int) :
    (update_word_progress iso now wp quality).status =
      some (if quality ≥ 4 ∧ wp.review_count.getD 0 ≥ 3 then "known"
            else if quality ≥ 3 then "learning" else "unknown") := by
  by_cases h1 : quality ≥ 4 ∧ wp.review_count.getD 0 ≥ 3
  · have h2 : quality ≥ 3 := by omega
    simp [update_word_progress, h1, h2]
  · by_cases h2 : quality ≥ 3
    · simp [update_word_progress, h1, h2]
    · have h3 : quality < 3 := by omega
      simp [update_word_progress, h1, h2, h3]

/-- C6: every update increments reviewCount by exactly one; on quality >= 3
consecutiveCorrect is incremented and consecutiveIncorrect zeroed, otherwise
the reverse; hence after any update at least one of the two momentum counters
is zero. -/
theorem c6_counters (iso : ℚ → String) (now : ℚ) (wp : WordProgress)
    (quality : Int) :
    (update_word_progress iso now wp quality).review_count =
      some (wp.review_count.getD 0 + 1) ∧
    (update_word_progress iso now wp quality).consecutive_correct =
      some (if quality ≥ 3 then wp.consecutive_correct.getD 0 + 1 else 0) ∧
    (update_word_progress iso now wp quality).consecutive_incorrect =
      some (if quality ≥ 3 then 0 else wp.consecutive_incorrect.getD 0 + 1) ∧
    ((update_word_progress iso now wp quality).consecutive_correct = some 0 ∨
     (update_word_progress iso now wp quality).consecutive_incorrect = some 0) := by
  by_cases h2 : quality ≥ 3
  · by_cases h1 : quality ≥ 4 ∧ wp.review_count.getD 0 ≥ 3
    · simp [update_word_progress, h1, h2]
    · simp [update_word_progress, h1, h2]
  · have h1 : ¬ (quality ≥ 4 ∧ wp.review_count.getD 0 ≥ 3) := by omega
    have h3 : quality < 3 := by omega
    simp [update_word_progress, h1, h2, h3]

/-- C7: a word with reviewCount 0 scores exactly 1000 whatever its other
fields are, and therefore outranks every word with history whose score is
below 1000. -/
theorem c7_unreviewed_priority (next_review : Option ℚ) (easiness : ℚ)
    (status : String) (now : ℚ) (nr2 : Option ℚ) (rc2 : Int) (e2 : ℚ)
    (st2 : String) (now2 : ℚ) (hrc : rc2 ≠ 0)
    (hlt : get_priority_score nr2 rc2 e2 st2 now2 < 1000) :
    get_priority_score next_review 0 easiness status now = 1000 ∧
    get_priority_score nr2 rc2 e2 st2 now2 <
      get_priority_score next_review 0 easiness status now := by
  have h : get_priority_score next_review 0 easiness status now = 1000 := by
    rw [get_priority_score, if_pos rfl]
  exact ⟨h, h ▸ hlt⟩

/-- C7 witness: the never-reviewed word at concrete fields scores 1000 and
outranks a reviewCount-1 word scoring 27.4. -/
theorem c7_unreviewed_priority_witness :
    ((1:Int) ≠ 0 ∧ get_priority_score none 1 (5/2) "learning" 0 < 1000) ∧
    (get_priority_score none 0 (5/2) "unknown" 0 = 1000 ∧
     get_priority_score none 1 (5/2) "learning" 0 <
       get_priority_score none 0 (5/2) "unknown" 0) := by
  have h1 : (1:Int) ≠ 0 := by omega
  have h2 : get_priority_score none 1 (5/2) "learning" 0 < 1000 := by
    have h : get_priority_score none 1 (5/2) "learning" 0 = 137/5 := by
      rw [get_priority_score]
      simp
      norm_num
    rw [h]
    norm_num
  exact ⟨⟨h1, h2⟩,
    c7_unreviewed_priority none (5/2) "unknown" 0 none 1 (5/2) "learning" 0 h1 h2⟩

/-- Scoring a pool never drops an entry: the scored list has the length of
the pool. -/
theorem length_scored (fromiso : String → Option ℚ) (now : ℚ)
    (pool : List WordData) :
    (pool.map (score_word fromiso now)).length = pool.length := by
  simp

/-- The stable descending sort of the scored pool keeps the length of the
pool. -/
theorem length_sorted_scored (fromiso : String → Option ℚ) (now : ℚ)
    (pool : List WordData) :
    ((pool.map (score_word fromiso now)).mergeSort
      (fun a b => decide (b.1 ≤ a.1))).length = pool.length := by
  simp

/-- Sorting the position-annotated scored pool by the total order (priority
descending, input position ascending) and erasing the position tags is the same
as the stable sort by priority descending that the embedding uses. This is
the stability of merge sort. -/
theorem sorted_scored_eq_annotated (fromiso : String → Option ℚ) (now : ℚ)
    (pool : List WordData) :
    ((pool.map (score_word fromiso now)).enum.mergeSort
        (List.enumLE (fun a b => decide (b.1 ≤ a.1)))).map (fun p => p.2) =
      (pool.map (score_word fromiso now)).mergeSort
        (fun a b => decide (b.1 ≤ a.1)) :=
  List.mergeSort_enum

/-- C8: for every pool and nonnegative maxWords, get_words_for_review is
exactly the selector of the spec: stable-sort by priority descending (ties by
input position) and return the first min(maxWords, pool size) entries; in
particular the result length is min(maxWords, pool size), so maxWords = 0
yields the empty list. -/
theorem c8_selector_refines_spec (fromiso : String → Option ℚ) (now : ℚ)
    (pool : List WordData) (m : Nat) :
    get_words_for_review fromiso now pool (m : Int) =
      selectForReviewSpec fromiso now pool m ∧
    (get_words_for_review fromiso now pool (m : Int)).length =
      min m pool.length := by
  have hnn : (0 : Int) ≤ (m : Int) := by exact_mod_cast Nat.zero_le m
  have hlen := length_sorted_scored fromiso now pool
  have htake : ((pool.map (score_word fromiso now)).mergeSort
      (fun a b => decide (b.1 ≤ a.1))).take m =
      ((pool.map (score_word fromiso now)).mergeSort
        (fun a b => decide (b.1 ≤ a.1))).take (min m pool.length) := by
    rcases Nat.le_total m pool.length with h | h
    · rw [Nat.min_eq_left h]
    · rw [Nat.min_eq_right h,
        List.take_of_length_le (le_trans (le_of_eq hlen) h),
        List.take_of_length_le (le_of_eq hlen)]
  constructor
  · simp only [get_words_for_review, selectForReviewSpec, pySlice]
    rw [if_pos hnn, Int.toNat_ofNat, sorted_scored_eq_annotated, htake]
  · simp only [get_words_for_review, pySlice]
    rw [if_pos hnn, Int.toNat_ofNat]
    simp [hlen]

/-- C9: an entry whose stored next_review is absent, empty, or rejected by
the timestamp parser is scored with a null next review time (no failure
occurs anywhere: everything here is a total function), no entry of the pool
is ever dropped by scoring, and the entry still appears in the sorted
candidate list. -/
theorem c9_malformed_timestamp_graceful (fromiso : String → Option ℚ)
    (now : ℚ) (w : WordData)
    (h : ∀ s, (w.progress.getD WordProgress.empty).next_review = some s →
      s = "" ∨ fromiso s = none) :
    score_word fromiso now w =
      (get_priority_score none
        ((w.progress.getD WordProgress.empty).review_count.getD 0)
        ((w.progress.getD WordProgress.empty).easiness.getD INITIAL_EASINESS)
        ((w.progress.getD WordProgress.empty).status.getD "unknown") now,
       w) ∧
    ∀ pool : List WordData,
      (pool.map (score_word fromiso now)).length = pool.length ∧
      (w ∈ pool → score_word fromiso now w ∈
        (pool.map (score_word fromiso now)).mergeSort
          (fun a b => decide (b.1 ≤ a.1))) := by
  have hnr : (match (w.progress.getD WordProgress.empty).next_review with
      | some s => if s = "" then none else fromiso s
      | none => none) = (none : Option ℚ) := by
    cases hc : (w.progress.getD WordProgress.empty).next_review with
    | none => rfl
    | some s =>
        rcases h s hc with h1 | h1
        · simp [h1]
        · simp [h1]
  constructor
  · simp only [score_word]
    rw [hnr]
  · intro pool
    refine ⟨length_scored fromiso now pool, fun hw => ?_⟩
    rw [List.mem_mergeSort]
    exact List.mem_map_of_mem _ hw

/-- C9 witness: a concrete entry storing the unparseable string
"not-a-timestamp" with a parser that rejects everything. -/
theorem c9_malformed_timestamp_graceful_witness :
    (∀ s, (testWord.progress.getD WordProgress.empty).next_review = some s →
      s = "" ∨ noParse s = none) ∧
    (score_word noParse 0 testWord =
      (get_priority_score none
        ((testWord.progress.getD WordProgress.empty).review_count.getD 0)
        ((testWord.progress.getD WordProgress.empty).easiness.getD
          INITIAL_EASINESS)
        ((testWord.progress.getD WordProgress.empty).status.getD "unknown") 0,
       testWord) ∧
    ∀ pool : List WordData,
      (pool.map (score_word noParse 0)).length = pool.length ∧
      (testWord ∈ pool → score_word noParse 0 testWord ∈
        (pool.map (score_word noParse 0)).mergeSort
          (fun a b => decide (b.1 ≤ a.1)))) :=
  ⟨fun s _ => Or.inr rfl,
   c9_malformed_timestamp_graceful noParse 0 testWord
     (fun s _ => Or.inr rfl)⟩

/-- C10: for every negative max_words (every negative integer is -(m+1) for
some natural m), get_words_for_review returns the sorted pool with its last
m+1 entries dropped: it equals the spec selector called with
maxWords = pool size - (m+1), and its length is the truncated subtraction
pool size - (m+1) (that is, max(0, pool size - |max_words|)); it neither
fails nor returns the empty list when the pool is larger. -/
theorem c10_negative_max_words (fromiso : String → Option ℚ) (now : ℚ)
    (pool : List WordData) (m : Nat) :
    get_words_for_review fromiso now pool (-((m : Int) + 1)) =
      selectForReviewSpec fromiso now pool (pool.length - (m + 1)) ∧
    (get_words_for_review fromiso now pool (-((m : Int) + 1))).length =
      pool.length - (m + 1) := by
  have hneg : ¬ (0 : Int) ≤ -((m : Int) + 1) := by omega
  have hcast : (-(-((m : Int) + 1))).toNat = m + 1 := by omega
  have hlen := length_sorted_scored fromiso now pool
  have htake : ((pool.map (score_word fromiso now)).mergeSort
      (fun a b => decide (b.1 ≤ a.1))).take
        (((pool.map (score_word fromiso now)).mergeSort
          (fun a b => decide (b.1 ≤ a.1))).length - (m + 1)) =
      ((pool.map (score_word fromiso now)).mergeSort
        (fun a b => decide (b.1 ≤ a.1))).take
          (min (pool.length - (m + 1)) pool.length) := by
    rw [hlen, Nat.min_eq_left (Nat.sub_le _ _)]
  constructor
  · simp only [get_words_for_review, selectForReviewSpec, pySlice]
    rw [if_neg hneg, hcast, sorted_scored_eq_annotated, htake]
  · simp only [get_words_for_review, pySlice]
    rw [if_neg hneg, hcast]
    simp [hlen, Nat.min_eq_left (Nat.sub_le _ _)]

end VocabSR
